import Mathlib

/-!
Verification of the game-state core of src/snake.py.

The embedding covers the headless logic: the Vec dataclass, direction
constants, out_of_bounds, is_opposite, random_free_cell, reset_game,
move_snake, and the per-tick game update of the main loop (the step
operation of the design document), with grid width and height as
explicit parameters whose repository values are GRID_W = 32 and
GRID_H = 24.

Randomness is modelled by an explicit list of pending draws for
random.randrange.  The rejection-sampling loop of random_free_cell
terminates with probability one in the source and can only ever return
a free in-grid cell; it is made total here by falling back to the first
free grid cell once the supplied draws are exhausted (under the guard
such a cell always exists), which preserves every observable property
other than the sampling distribution.
-/

/-- Grid positions and direction vectors, mirroring the frozen dataclass
Vec with integer fields x and y. -/
structure Vec where
  x : Int
  y : Int
deriving DecidableEq, Repr

instance : Inhabited Vec := ⟨⟨0, 0⟩⟩

/-- Componentwise addition, mirroring the add method of Vec. -/
instance : Add Vec := ⟨fun a b => ⟨a.x + b.x, a.y + b.y⟩⟩

def GRID_W : Nat := 32

def GRID_H : Nat := 24

def DIR_UP : Vec := ⟨0, -1⟩

def DIR_DOWN : Vec := ⟨0, 1⟩

def DIR_LEFT : Vec := ⟨-1, 0⟩

def DIR_RIGHT : Vec := ⟨1, 0⟩

/-- is_opposite from the source: true if directions a and b are exact
componentwise negations of each other. -/
def is_opposite (a b : Vec) : Bool :=
  a.x == -b.x && a.y == -b.y

/-- out_of_bounds from the source, for grid width W and height H. -/
def out_of_bounds (W H : Nat) (p : Vec) : Bool :=
  decide (p.x < 0 ∨ (W : Int) ≤ p.x ∨ p.y < 0 ∨ (H : Int) ≤ p.y)

/-- All W * H cells of the grid, each exactly once. -/
def gridCells (W H : Nat) : List Vec :=
  (List.range (W * H)).map fun i => ⟨(i % W : Nat), (i / W : Nat)⟩

/-- One draw of random.randrange(W) and random.randrange(H), taken from
a pair of pending natural numbers. -/
def propose (W H : Nat) (r : Nat × Nat) : Vec :=
  ⟨(r.1 % W : Nat), (r.2 % H : Nat)⟩

/-- The rejection-sampling loop of random_free_cell: consume pending
draws until one is outside the occupied list; when the draws run out,
fall back to the first free grid cell (the source loops forever drawing
fresh cells, and under the caller guard a free grid cell exists). -/
def sample (W H : Nat) (occupied : List Vec) : List (Nat × Nat) → Option Vec
  | [] => (gridCells W H).find? fun c => decide (c ∉ occupied)
  | r :: rs =>
    if propose W H r ∈ occupied then sample W H occupied rs
    else some (propose W H r)

/-- random_free_cell from the source: raise (Except.error, standing for
the RuntimeError) when the occupied set has at least W * H distinct
members, otherwise sample a cell not in occupied.  The length of the
Python set is occupied.dedup.length. -/
def random_free_cell (W H : Nat) (rs : List (Nat × Nat))
    (occupied : List Vec) : Except Unit Vec :=
  if W * H ≤ occupied.dedup.length then Except.error ()
  else
    match sample W H occupied rs with
    | some p => Except.ok p
    | none => Except.error ()

/-- State of the game variables of main: snake body (head first),
current direction, food cell, score, and the game_over flag. -/
structure GameState where
  snake : List Vec
  direction : Vec
  food : Vec
  score : Nat
  game_over : Bool
deriving DecidableEq, Repr

/-- move_snake from the source: compute the new head and push it on the
front of the body (snake.insert at index 0); returns both. -/
def move_snake (snake : List Vec) (direction : Vec) : Vec × List Vec :=
  (snake.headI + direction, (snake.headI + direction) :: snake)

/-- Direction update of one tick of main: the pressed key becomes the
pending direction only when it is not the exact opposite of the current
direction, and the pending direction is installed before the move. -/
def applyIntent (direction : Vec) : Option Vec → Vec
  | none => direction
  | some cand => if is_opposite cand direction then direction else cand

/-- Initial three-segment body of reset_game, head first, centered on
the grid. -/
def initSnake (W H : Nat) : List Vec :=
  let start : Vec := ⟨(W / 2 : Nat), (H / 2 : Nat)⟩
  [start, start + DIR_LEFT, start + DIR_LEFT + DIR_LEFT]

/-- reset_game from the source: centered three-segment body facing
right, score 0, not game over, food on a random free cell.  A failure
of random_free_cell is not caught here and propagates, exactly as in
the source where reset_game has no try block. -/
def reset_game (W H : Nat) (rs : List (Nat × Nat)) : Except Unit GameState :=
  match random_free_cell W H rs (initSnake W H) with
  | Except.ok food => Except.ok ⟨initSnake W H, DIR_RIGHT, food, 0, false⟩
  | Except.error e => Except.error e

/-- One tick of the game update in main: a no-op when game_over,
otherwise install the pending direction, move the snake, then in order:
wall check, self check of the new head against snake[1:], food check
(score increment, new food, win-by-fill turning the placement failure
into game over), or tail pop when nothing was eaten. -/
def step (W H : Nat) (rs : List (Nat × Nat)) (intent : Option Vec)
    (s : GameState) : GameState :=
  if s.game_over then s
  else
    let direction := applyIntent s.direction intent
    let new_head := (move_snake s.snake direction).1
    let snake1 := (move_snake s.snake direction).2
    if out_of_bounds W H new_head then
      { s with snake := snake1, direction := direction, game_over := true }
    else if new_head ∈ snake1.tail then
      { s with snake := snake1, direction := direction, game_over := true }
    else if new_head = s.food then
      match random_free_cell W H rs snake1 with
      | Except.ok f =>
        { snake := snake1, direction := direction, food := f,
          score := s.score + 1, game_over := false }
      | Except.error _ =>
        { s with
          snake := snake1
          direction := direction
          score := s.score + 1
          game_over := true }
    else
      { s with snake := snake1.dropLast, direction := direction }

/-- Effective direction of a tick: the current direction after the
intent has been filtered by the reversal rule. -/
def effDir (intent : Option Vec) (s : GameState) : Vec :=
  applyIntent s.direction intent

/-- Head cell the snake moves onto this tick. -/
def newHead (intent : Option Vec) (s : GameState) : Vec :=
  s.snake.headI + effDir intent s

/-- Run a list of ticks, each with its own pending draws and intent. -/
def runSteps (W H : Nat) (s : GameState) :
    List (List (Nat × Nat) × Option Vec) → GameState
  | [] => s
  | t :: ts => runSteps W H (step W H t.1 t.2 s) ts

/-- A tick is food-eating when the state is live, the new head stays on
the grid, hits no body segment, and lands on the food. -/
def isEat (W H : Nat) (intent : Option Vec) (s : GameState) : Bool :=
  !s.game_over &&
  !(out_of_bounds W H (newHead intent s)) &&
  !(decide (newHead intent s ∈ s.snake)) &&
  decide (newHead intent s = s.food)

/-- Number of food-eating ticks along a run. -/
def countEats (W H : Nat) (s : GameState) :
    List (List (Nat × Nat) × Option Vec) → Nat
  | [] => 0
  | t :: ts =>
    (if isEat W H t.2 s then 1 else 0) + countEats W H (step W H t.1 t.2 s) ts

/-- States reachable from a successful reset_game by any sequence of
ticks, with arbitrary draws and intents. -/
inductive Reachable (W H : Nat) : GameState → Prop
  | reset (rs : List (Nat × Nat)) (s : GameState)
      (h : reset_game W H rs = Except.ok s) : Reachable W H s
  | step (rs : List (Nat × Nat)) (intent : Option Vec) (s : GameState)
      (h : Reachable W H s) : Reachable W H (step W H rs intent s)

/-- Invariant carried by every reachable state: nonempty body, no
duplicate segments while live, food on the grid, and food off the body
except in a win-by-fill terminal state where the food sits on the head. -/
def StateInv (W H : Nat) (s : GameState) : Prop :=
  s.snake ≠ [] ∧
  (s.game_over = false → s.snake.Nodup) ∧
  out_of_bounds W H s.food = false ∧
  (s.food ∉ s.snake ∨ (s.game_over = true ∧ s.food = s.snake.headI))

instance {ε α : Type} [DecidableEq ε] [DecidableEq α] :
    DecidableEq (Except ε α) := fun a b =>
  match a, b with
  | Except.ok x, Except.ok y =>
    if h : x = y then isTrue (by rw [h])
    else isFalse (fun hc => h (by injection hc))
  | Except.ok _, Except.error _ => isFalse (fun hc => Except.noConfusion hc)
  | Except.error _, Except.ok _ => isFalse (fun hc => Except.noConfusion hc)
  | Except.error x, Except.error y =>
    if h : x = y then isTrue (by rw [h])
    else isFalse (fun hc => h (by injection hc))

/-- Concrete states used in counterexamples and witnesses. -/
def s42 : GameState := ⟨[⟨4, 2⟩, ⟨3, 2⟩, ⟨2, 2⟩], DIR_RIGHT, ⟨0, 0⟩, 0, false⟩

def sqState : GameState :=
  ⟨[⟨1, 1⟩, ⟨2, 1⟩, ⟨2, 2⟩, ⟨1, 2⟩], DIR_DOWN, ⟨4, 4⟩, 0, false⟩

def s40 : GameState := ⟨[⟨2, 0⟩, ⟨1, 0⟩, ⟨0, 0⟩], DIR_RIGHT, ⟨3, 0⟩, 0, false⟩

def termState : GameState := ⟨[⟨0, 0⟩], DIR_RIGHT, ⟨1, 1⟩, 0, true⟩

def offGrid4 : List Vec := [⟨-1, -1⟩, ⟨-1, -2⟩, ⟨-2, -1⟩, ⟨-2, -2⟩]

lemma Vec.add_def (a b : Vec) : a + b = ⟨a.x + b.x, a.y + b.y⟩ := rfl

lemma move_snake_fst (l : List Vec) (d : Vec) :
    (move_snake l d).1 = l.headI + d := rfl

lemma move_snake_snd (l : List Vec) (d : Vec) :
    (move_snake l d).2 = (l.headI + d) :: l := rfl

lemma gridCells_length (W H : Nat) : (gridCells W H).length = W * H := by
  simp [gridCells]

lemma gridCells_nodup (W H : Nat) : (gridCells W H).Nodup := by
  refine List.Nodup.map_on ?_ (List.nodup_range _)
  intro i hi j hj hij
  simp only [List.mem_range] at hi hj
  have hW : 0 < W := by
    rcases Nat.eq_zero_or_pos W with h0 | h0
    · subst h0; simp at hi
    · exact h0
  have h1 : (i % W : Int) = (j % W : Int) ∧ (i / W : Int) = (j / W : Int) := by
    have := Vec.mk.injEq (i % W : Nat) (i / W : Nat) (j % W : Nat) (j / W : Nat)
    rw [this] at hij
    exact hij
  have h2 : i % W = j % W := by exact_mod_cast h1.1
  have h3 : i / W = j / W := by exact_mod_cast h1.2
  calc i = W * (i / W) + i % W := (Nat.div_add_mod i W).symm
    _ = W * (j / W) + j % W := by rw [h2, h3]
    _ = j := Nat.div_add_mod j W

lemma mem_gridCells_oob {W H : Nat} {c : Vec} (hc : c ∈ gridCells W H) :
    out_of_bounds W H c = false := by
  simp only [gridCells, List.mem_map, List.mem_range] at hc
  obtain ⟨i, hi, rfl⟩ := hc
  have hW : 0 < W := by
    rcases Nat.eq_zero_or_pos W with h0 | h0
    · subst h0; simp at hi
    · exact h0
  have hmod : i % W < W := Nat.mod_lt _ hW
  have hdiv : i / W < H := Nat.div_lt_of_lt_mul hi
  simp only [out_of_bounds, decide_eq_false_iff_not]
  push_neg
  refine ⟨by positivity, by exact_mod_cast hmod, by positivity, by exact_mod_cast hdiv⟩

lemma oob_propose {W H : Nat} (hW : 0 < W) (hH : 0 < H) (r : Nat × Nat) :
    out_of_bounds W H (propose W H r) = false := by
  have h1 : r.1 % W < W := Nat.mod_lt _ hW
  have h2 : r.2 % H < H := Nat.mod_lt _ hH
  simp only [propose, out_of_bounds, decide_eq_false_iff_not]
  push_neg
  refine ⟨by positivity, by exact_mod_cast h1, by positivity, by exact_mod_cast h2⟩

lemma sample_spec {W H : Nat} {occupied : List Vec}
    (h : occupied.dedup.length < W * H) (rs : List (Nat × Nat)) :
    ∃ p, sample W H occupied rs = some p ∧ p ∉ occupied ∧
      out_of_bounds W H p = false := by
  have hpos : 0 < W * H := Nat.lt_of_le_of_lt (Nat.zero_le _) h
  have hW : 0 < W := by
    rcases Nat.eq_zero_or_pos W with h0 | h0
    · subst h0; simp at hpos
    · exact h0
  have hH : 0 < H := by
    rcases Nat.eq_zero_or_pos H with h0 | h0
    · subst h0; simp at hpos
    · exact h0
  induction rs with
  | nil =>
    cases hf : (gridCells W H).find? (fun c => decide (c ∉ occupied)) with
    | none =>
      exfalso
      have hsub : gridCells W H ⊆ occupied.dedup := by
        intro c hc
        have hcc := List.find?_eq_none.mp hf c hc
        have hcm : c ∈ occupied := by simpa using hcc
        exact List.mem_dedup.mpr hcm
      have hlen :=
        (List.subperm_of_subset (gridCells_nodup W H) hsub).length_le
      rw [gridCells_length] at hlen
      omega
    | some p =>
      have hp := List.find?_some hf
      have hpm := List.mem_of_find?_eq_some hf
      simp only [decide_not, Bool.not_eq_true', decide_eq_false_iff_not] at hp
      exact ⟨p, hf, hp, mem_gridCells_oob hpm⟩
  | cons r rs ih =>
    by_cases hin : propose W H r ∈ occupied
    · obtain ⟨p, hp1, hp2, hp3⟩ := ih
      exact ⟨p, by simp [sample, hin, hp1], hp2, hp3⟩
    · exact ⟨propose W H r, by simp [sample, hin], hin, oob_propose hW hH r⟩

lemma random_free_cell_error_iff (W H : Nat) (rs : List (Nat × Nat))
    (occupied : List Vec) :
    random_free_cell W H rs occupied = Except.error () ↔
      W * H ≤ occupied.dedup.length := by
  constructor
  · intro h
    by_contra hg
    obtain ⟨p, hp1, _, _⟩ := sample_spec (Nat.lt_of_not_le hg) rs
    rw [random_free_cell, if_neg hg, hp1] at h
    exact Except.noConfusion h
  · intro h
    rw [random_free_cell, if_pos h]

lemma random_free_cell_ok_spec {W H : Nat} {rs : List (Nat × Nat)}
    {occupied : List Vec} {p : Vec}
    (h : random_free_cell W H rs occupied = Except.ok p) :
    p ∉ occupied ∧ out_of_bounds W H p = false := by
  by_cases hg : W * H ≤ occupied.dedup.length
  · rw [random_free_cell, if_pos hg] at h
    exact absurd h (fun hc => Except.noConfusion hc)
  · obtain ⟨q, hq1, hq2, hq3⟩ := sample_spec (Nat.lt_of_not_le hg) rs
    rw [random_free_cell, if_neg hg, hq1] at h
    have : q = p := by injection h
    subst this
    exact ⟨hq2, hq3⟩

lemma step_eq_terminal (W H : Nat) (rs : List (Nat × Nat))
    (intent : Option Vec) (s : GameState) (hg : s.game_over = true) :
    step W H rs intent s = s := by
  simp [step, hg]

lemma step_eq_wall (W H : Nat) (rs : List (Nat × Nat)) (intent : Option Vec)
    (s : GameState) (hg : s.game_over = false)
    (hw : out_of_bounds W H (newHead intent s) = true) :
    step W H rs intent s =
      { s with snake := newHead intent s :: s.snake,
               direction := effDir intent s, game_over := true } := by
  simp only [newHead, effDir] at hw ⊢
  simp [step, move_snake, hg, hw]

lemma step_eq_self (W H : Nat) (rs : List (Nat × Nat)) (intent : Option Vec)
    (s : GameState) (hg : s.game_over = false)
    (hw : out_of_bounds W H (newHead intent s) = false)
    (hm : newHead intent s ∈ s.snake) :
    step W H rs intent s =
      { s with snake := newHead intent s :: s.snake,
               direction := effDir intent s, game_over := true } := by
  simp only [newHead, effDir] at hw hm ⊢
  simp [step, move_snake, hg, hw, hm]

lemma step_eq_eat_ok (W H : Nat) (rs : List (Nat × Nat)) (intent : Option Vec)
    (s : GameState) (f : Vec) (hg : s.game_over = false)
    (hw : out_of_bounds W H (newHead intent s) = false)
    (hm : newHead intent s ∉ s.snake)
    (hf : newHead intent s = s.food)
    (hr : random_free_cell W H rs (newHead intent s :: s.snake) = Except.ok f) :
    step W H rs intent s =
      ⟨newHead intent s :: s.snake, effDir intent s, f, s.score + 1, false⟩ := by
  simp only [newHead, effDir] at hw hm hf hr ⊢
  rw [hf] at hw hm hr
  simp [step, move_snake, hg, hw, hm, hf, hr]

lemma step_eq_eat_err (W H : Nat) (rs : List (Nat × Nat)) (intent : Option Vec)
    (s : GameState) (hg : s.game_over = false)
    (hw : out_of_bounds W H (newHead intent s) = false)
    (hm : newHead intent s ∉ s.snake)
    (hf : newHead intent s = s.food)
    (hr : random_free_cell W H rs (newHead intent s :: s.snake) =
      Except.error ()) :
    step W H rs intent s =
      { s with snake := newHead intent s :: s.snake,
               direction := effDir intent s,
               score := s.score + 1, game_over := true } := by
  simp only [newHead, effDir] at hw hm hf hr ⊢
  rw [hf] at hw hm hr
  simp [step, move_snake, hg, hw, hm, hf, hr]

lemma step_eq_move (W H : Nat) (rs : List (Nat × Nat)) (intent : Option Vec)
    (s : GameState) (hg : s.game_over = false)
    (hw : out_of_bounds W H (newHead intent s) = false)
    (hm : newHead intent s ∉ s.snake)
    (hf : newHead intent s ≠ s.food) :
    step W H rs intent s =
      { s with snake := (newHead intent s :: s.snake).dropLast,
               direction := effDir intent s } := by
  simp only [newHead, effDir] at hw hm hf ⊢
  simp [step, move_snake, hg, hw, hm, hf]

lemma initSnake_nodup (W H : Nat) : (initSnake W H).Nodup := by
  simp only [initSnake, DIR_LEFT, Vec.add_def, List.nodup_cons,
    List.mem_cons, List.not_mem_nil, List.nodup_nil, or_false,
    and_true, not_or, Vec.mk.injEq, not_and]
  refine ⟨⟨fun h => absurd h (by omega), fun h => absurd h (by omega)⟩,
    fun h => absurd h (by omega), fun h => h⟩

lemma initSnake_ne_nil (W H : Nat) : initSnake W H ≠ [] := by
  simp [initSnake]

lemma initSnake_dedup_length (W H : Nat) :
    (initSnake W H).dedup.length = 3 := by
  rw [List.dedup_eq_self.mpr (initSnake_nodup W H)]
  simp [initSnake]

lemma reset_game_ok_elim {W H : Nat} {rs : List (Nat × Nat)} {s : GameState}
    (h : reset_game W H rs = Except.ok s) :
    s.snake = initSnake W H ∧ s.direction = DIR_RIGHT ∧ s.score = 0 ∧
    s.game_over = false ∧ s.food ∉ initSnake W H ∧
    out_of_bounds W H s.food = false := by
  rw [reset_game] at h
  cases hr : random_free_cell W H rs (initSnake W H) with
  | ok f =>
    rw [hr] at h
    have hs : s = ⟨initSnake W H, DIR_RIGHT, f, 0, false⟩ := by
      injection h with h2
      exact h2.symm
    obtain ⟨hfree, hoob⟩ := random_free_cell_ok_spec hr
    subst hs
    exact ⟨rfl, rfl, rfl, rfl, hfree, hoob⟩
  | error e =>
    rw [hr] at h
    exact absurd h (fun hc => Except.noConfusion hc)

lemma reset_game_exists_ok (W H : Nat) (rs : List (Nat × Nat))
    (h : 3 < W * H) : ∃ s, reset_game W H rs = Except.ok s := by
  have hguard : ¬(W * H ≤ (initSnake W H).dedup.length) := by
    rw [initSnake_dedup_length]; omega
  obtain ⟨p, hp1, _, _⟩ :=
    sample_spec (show (initSnake W H).dedup.length < W * H by
      rw [initSnake_dedup_length]; omega) rs
  refine ⟨⟨initSnake W H, DIR_RIGHT, p, 0, false⟩, ?_⟩
  rw [reset_game, random_free_cell, if_neg hguard, hp1]

lemma oob_ne {W H : Nat} {a b : Vec} (ha : out_of_bounds W H a = false)
    (hb : out_of_bounds W H b = true) : b ≠ a := by
  intro h
  rw [h, ha] at hb
  exact Bool.noConfusion hb

lemma stateInv_reset {W H : Nat} {rs : List (Nat × Nat)} {s : GameState}
    (h : reset_game W H rs = Except.ok s) : StateInv W H s := by
  obtain ⟨hsn, _, _, hgo, hfree, hoob⟩ := reset_game_ok_elim h
  refine ⟨by rw [hsn]; exact initSnake_ne_nil W H,
    fun _ => by rw [hsn]; exact initSnake_nodup W H, hoob, Or.inl ?_⟩
  rw [hsn]
  exact hfree

lemma stateInv_step (W H : Nat) (rs : List (Nat × Nat)) (intent : Option Vec)
    (s : GameState) (h : StateInv W H s) :
    StateInv W H (step W H rs intent s) := by
  obtain ⟨hne, hnd, hoob, hfood⟩ := h
  cases hg : s.game_over with
  | true =>
    rw [step_eq_terminal W H rs intent s hg]
    exact ⟨hne, hnd, hoob, hfood⟩
  | false =>
    have hfree : s.food ∉ s.snake := by
      rcases hfood with hf | ⟨hgo, _⟩
      · exact hf
      · rw [hg] at hgo
        exact Bool.noConfusion hgo
    cases hw : out_of_bounds W H (newHead intent s) with
    | true =>
      rw [step_eq_wall W H rs intent s hg hw]
      refine ⟨by simp, by simp, hoob, Or.inl ?_⟩
      simp only [List.mem_cons, not_or]
      exact ⟨fun hc => oob_ne hoob hw hc.symm, hfree⟩
    | false =>
      by_cases hm : newHead intent s ∈ s.snake
      · rw [step_eq_self W H rs intent s hg hw hm]
        refine ⟨by simp, by simp, hoob, Or.inl ?_⟩
        simp only [List.mem_cons, not_or]
        refine ⟨fun hc => hfree (hc ▸ hm), hfree⟩
      · by_cases hf : newHead intent s = s.food
        · cases hr : random_free_cell W H rs (newHead intent s :: s.snake) with
          | ok f =>
            rw [step_eq_eat_ok W H rs intent s f hg hw hm hf hr]
            obtain ⟨hfree2, hoob2⟩ := random_free_cell_ok_spec hr
            exact ⟨by simp, fun _ => by
              simp only [List.nodup_cons]
              exact ⟨hm, hnd hg⟩, hoob2, Or.inl hfree2⟩
          | error e =>
            rw [step_eq_eat_err W H rs intent s hg hw hm hf hr]
            refine ⟨by simp, fun hc => by simp at hc, ?_, Or.inr ⟨rfl, ?_⟩⟩
            · rw [← hf]
              exact hw
            · simp [hf]
        · rw [step_eq_move W H rs intent s hg hw hm hf]
          obtain ⟨b, l, hbl⟩ : ∃ b l, s.snake = b :: l := by
            cases hsn : s.snake with
            | nil => exact absurd hsn hne
            | cons b l => exact ⟨b, l, rfl⟩
          refine ⟨?_, fun _ => ?_, hoob, Or.inl ?_⟩
          · rw [hbl]
            simp [List.dropLast_cons_of_ne_nil]
          · refine List.Nodup.sublist (List.dropLast_sublist _) ?_
            simp only [List.nodup_cons]
            exact ⟨hm, hnd hg⟩
          · intro hc
            have : s.food ∈ newHead intent s :: s.snake :=
              (List.dropLast_sublist _).subset hc
            simp only [List.mem_cons] at this
            rcases this with h1 | h1
            · exact hf h1.symm
            · exact hfree h1

lemma reachable_stateInv {W H : Nat} {s : GameState}
    (h : Reachable W H s) : StateInv W H s := by
  induction h with
  | reset rs s hr => exact stateInv_reset hr
  | step rs intent s _ ih => exact stateInv_step W H rs intent s ih

lemma step_score (W H : Nat) (rs : List (Nat × Nat)) (intent : Option Vec)
    (s : GameState) :
    (step W H rs intent s).score =
      s.score + (if isEat W H intent s then 1 else 0) := by
  cases hg : s.game_over with
  | true =>
    rw [step_eq_terminal W H rs intent s hg]
    simp [isEat, hg]
  | false =>
    cases hw : out_of_bounds W H (newHead intent s) with
    | true =>
      rw [step_eq_wall W H rs intent s hg hw]
      simp [isEat, hg, hw]
    | false =>
      by_cases hm : newHead intent s ∈ s.snake
      · rw [step_eq_self W H rs intent s hg hw hm]
        simp [isEat, hg, hw, hm]
      · by_cases hf : newHead intent s = s.food
        · cases hr : random_free_cell W H rs (newHead intent s :: s.snake) with
          | ok f =>
            rw [step_eq_eat_ok W H rs intent s f hg hw hm hf hr]
            have hw2 : out_of_bounds W H s.food = false := by rw [← hf]; exact hw
            have hm2 : s.food ∉ s.snake := by rw [← hf]; exact hm
            simp [isEat, hg, hw, hm, hf, hw2, hm2]
          | error e =>
            rw [step_eq_eat_err W H rs intent s hg hw hm hf hr]
            have hw2 : out_of_bounds W H s.food = false := by rw [← hf]; exact hw
            have hm2 : s.food ∉ s.snake := by rw [← hf]; exact hm
            simp [isEat, hg, hw, hm, hf, hw2, hm2]
        · rw [step_eq_move W H rs intent s hg hw hm hf]
          simp [isEat, hg, hw, hm, hf]

lemma step_score_mono (W H : Nat) (rs : List (Nat × Nat))
    (intent : Option Vec) (s : GameState) :
    s.score ≤ (step W H rs intent s).score := by
  rw [step_score]
  split <;> omega

lemma runSteps_score (W H : Nat) (s : GameState)
    (tr : List (List (Nat × Nat) × Option Vec)) :
    (runSteps W H s tr).score = s.score + countEats W H s tr := by
  induction tr generalizing s with
  | nil => simp [runSteps, countEats]
  | cons t ts ih =>
    rw [runSteps, countEats, ih, step_score]
    omega

lemma runSteps_append (W H : Nat) (s : GameState)
    (tr tr2 : List (List (Nat × Nat) × Option Vec)) :
    runSteps W H s (tr ++ tr2) = runSteps W H (runSteps W H s tr) tr2 := by
  induction tr generalizing s with
  | nil => simp [runSteps]
  | cons t ts ih =>
    rw [List.cons_append, runSteps, runSteps, ih]

lemma runSteps_score_mono (W H : Nat) (s : GameState)
    (tr tr2 : List (List (Nat × Nat) × Option Vec)) :
    (runSteps W H s tr).score ≤ (runSteps W H s (tr ++ tr2)).score := by
  rw [runSteps_append]
  generalize runSteps W H s tr = s2
  induction tr2 generalizing s2 with
  | nil => simp [runSteps]
  | cons t ts ih =>
    rw [runSteps]
    exact Nat.le_trans (step_score_mono W H t.1 t.2 s2) (ih _)

/-- C1 counterexample: on a 5 by 5 grid with head (4,2) heading right,
step with no intent sets terminal but the body does change — the
out-of-bounds new head is prepended by move_snake and never removed, so
the body is not unchanged from before the failed move. -/
theorem step_wall_collision_body_changes :
    (step 5 5 [] none s42).game_over = true ∧
    (step 5 5 [] none s42).snake ≠ s42.snake := by
  exact ⟨by decide, by decide⟩

/-- C1 (amended): on a wall collision in a non-terminal state, step
sets terminal and leaves food and score unchanged, but the body becomes
the out-of-bounds new head prepended to the old body (the prepend done
by move_snake before the check is not undone, and no tail is removed),
and the direction is the intent-updated effective direction. -/
theorem step_wall_collision_spec (W H : Nat) (rs : List (Nat × Nat))
    (intent : Option Vec) (s : GameState) (hg : s.game_over = false)
    (hw : out_of_bounds W H (newHead intent s) = true) :
    step W H rs intent s =
      { s with snake := newHead intent s :: s.snake,
               direction := effDir intent s, game_over := true } :=
  step_eq_wall W H rs intent s hg hw

/-- C1 witness: the amended wall-collision description instantiated at
the 5 by 5 state with head (4,2) heading right and no intent. -/
theorem step_wall_collision_spec_witness :
    step 5 5 [] none s42 =
      { s42 with snake := newHead none s42 :: s42.snake,
                 direction := effDir none s42, game_over := true } :=
  step_wall_collision_spec 5 5 [] none s42 rfl (by decide)

/-- C2 counterexample: a non-terminal state whose new head is exactly
the current tail cell, with the food elsewhere (a non-eating move); the
source flags this as a self-collision, whereas the claim says the tail
cell is excluded from the test on non-eating moves. -/
theorem step_into_tail_sets_game_over :
    sqState.game_over = false ∧
    sqState.snake.getLast? = some (newHead none sqState) ∧
    newHead none sqState ≠ sqState.food ∧
    (step 5 5 [] none sqState).game_over = true := by
  exact ⟨by decide, by decide, by decide, by decide⟩

/-- C2 (amended): the tail cell is never excluded from the self test:
in a non-terminal state, whenever the in-bounds new head lies anywhere
in the pre-step body — tail included, eating or not — step records a
self-collision (the test new head in snake[1:] runs after the prepend,
so it scans exactly the whole pre-step body). -/
theorem step_tail_cell_is_collision (W H : Nat) (rs : List (Nat × Nat))
    (intent : Option Vec) (s : GameState) (hg : s.game_over = false)
    (hw : out_of_bounds W H (newHead intent s) = false)
    (hm : newHead intent s ∈ s.snake) :
    step W H rs intent s =
      { s with snake := newHead intent s :: s.snake,
               direction := effDir intent s, game_over := true } :=
  step_eq_self W H rs intent s hg hw hm

/-- C2 witness: the amended self-collision description instantiated at
the square-loop state whose head moves onto its own tail cell. -/
theorem step_tail_cell_is_collision_witness :
    step 5 5 [] none sqState =
      { sqState with snake := newHead none sqState :: sqState.snake,
                     direction := effDir none sqState, game_over := true } :=
  step_tail_cell_is_collision 5 5 [] none sqState rfl (by decide) (by decide)

/-- C3 counterexample: on a 4 by 1 grid, one step after reset eats the
only free cell, random_free_cell fails, and the resulting reachable
terminal state (win by fill) has its food on the body — so food is not
disjoint from the body in every reachable state. -/
theorem winfill_food_on_body :
    Reachable 4 1 (step 4 1 [] none s40) ∧
    (step 4 1 [] none s40).game_over = true ∧
    (step 4 1 [] none s40).food ∈ (step 4 1 [] none s40).snake := by
  refine ⟨Reachable.step [] none s40 (Reachable.reset [] s40 (by decide)),
    by decide, by decide⟩

/-- C3 (amended): in every reachable state the food is off the body,
except that a win-by-fill terminal state keeps the old food, which then
coincides with the head; in particular food is disjoint from the body
in every live reachable state and in wall or self collision terminals. -/
theorem reachable_food_disjoint_or_winfill (W H : Nat) (s : GameState)
    (h : Reachable W H s) :
    s.food ∉ s.snake ∨ (s.game_over = true ∧ s.food = s.snake.headI) :=
  (reachable_stateInv h).2.2.2

/-- C3 witness: the amended food invariant at the freshly reset 4 by 1
state. -/
theorem reachable_food_disjoint_or_winfill_witness :
    s40.food ∉ s40.snake ∨ (s40.game_over = true ∧ s40.food = s40.snake.headI) :=
  reachable_food_disjoint_or_winfill 4 1 s40 (Reachable.reset [] s40 (by decide))

/-- C4: random_free_cell errors exactly when the occupied set has at
least W * H distinct members and otherwise returns a free cell; inside
step the error is turned into the terminal win state (step is total and
returns a GameState, never a propagated error); and at the repository
grid of GRID_W by GRID_H, reset_game always succeeds, so the error
never escapes either entry point of the program as built. -/
theorem random_free_cell_contract :
    (∀ (W H : Nat) (rs : List (Nat × Nat)) (occupied : List Vec),
      random_free_cell W H rs occupied = Except.error () ↔
        W * H ≤ occupied.dedup.length) ∧
    (∀ (W H : Nat) (rs : List (Nat × Nat)) (occupied : List Vec) (p : Vec),
      random_free_cell W H rs occupied = Except.ok p → p ∉ occupied) ∧
    (∀ (W H : Nat) (rs : List (Nat × Nat)) (intent : Option Vec)
      (s : GameState),
      s.game_over = false →
      out_of_bounds W H (newHead intent s) = false →
      newHead intent s ∉ s.snake →
      newHead intent s = s.food →
      random_free_cell W H rs (newHead intent s :: s.snake) =
        Except.error () →
      (step W H rs intent s).game_over = true) ∧
    (∀ rs : List (Nat × Nat), ∃ s, reset_game GRID_W GRID_H rs = Except.ok s) := by
  refine ⟨random_free_cell_error_iff,
    fun W H rs occ p h => (random_free_cell_ok_spec h).1,
    fun W H rs intent s hg hw hm hf hr => ?_,
    fun rs => reset_game_exists_ok GRID_W GRID_H rs (by decide)⟩
  rw [step_eq_eat_err W H rs intent s hg hw hm hf hr]

/-- C4 witness: the free-cell guarantee applied at a concrete call. -/
theorem random_free_cell_contract_witness :
    (⟨1, 0⟩ : Vec) ∉ [(⟨0, 0⟩ : Vec)] :=
  random_free_cell_contract.2.1 2 2 [] [⟨0, 0⟩] ⟨1, 0⟩ (by decide)

/-- C5 counterexample: for the invalid configuration W = 1 (smaller
than 3), reset_game does not fail fast with a configuration error — it
returns a game state, whose initial body even extends off-grid. -/
theorem reset_small_grid_succeeds :
    reset_game 1 5 [] =
      Except.ok ⟨[⟨0, 2⟩, ⟨-1, 2⟩, ⟨-2, 2⟩], DIR_RIGHT, ⟨0, 0⟩, 0, false⟩ := by
  decide

/-- C5 (amended): the source performs no configuration validation at
all: with W smaller than 3 reset_game still produces a state (with body
cells off-grid) rather than a configuration error; the repository fixes
the grid to the constants GRID_W = 32 and GRID_H = 24, a valid size for
which reset_game always succeeds. -/
theorem reset_no_config_validation :
    reset_game 1 5 [] =
      Except.ok ⟨[⟨0, 2⟩, ⟨-1, 2⟩, ⟨-2, 2⟩], DIR_RIGHT, ⟨0, 0⟩, 0, false⟩ ∧
    out_of_bounds 1 5 ⟨-1, 2⟩ = true ∧
    GRID_W = 32 ∧ GRID_H = 24 ∧
    (∀ rs : List (Nat × Nat), ∃ s, reset_game GRID_W GRID_H rs = Except.ok s) :=
  ⟨by decide, by decide, rfl, rfl,
    fun rs => reset_game_exists_ok GRID_W GRID_H rs (by decide)⟩

/-- C6: a terminal state is absorbing under step — one tick, with any
intent and any pending draws, returns the state unchanged, and so does
any run of further ticks until an explicit reset. -/
theorem step_terminal_absorbing (W H : Nat) (rs : List (Nat × Nat))
    (intent : Option Vec) (s : GameState) (h : s.game_over = true) :
    step W H rs intent s = s ∧ ∀ tr, runSteps W H s tr = s := by
  refine ⟨step_eq_terminal W H rs intent s h, fun tr => ?_⟩
  induction tr with
  | nil => rfl
  | cons t ts ih =>
    rw [runSteps, step_eq_terminal W H t.1 t.2 s h]
    exact ih

/-- C6 witness: absorption at a concrete terminal state, for one tick
and for a two-tick run. -/
theorem step_terminal_absorbing_witness :
    step 5 5 [] none termState = termState ∧
    runSteps 5 5 termState [([], none), ([], some DIR_UP)] = termState :=
  ⟨(step_terminal_absorbing 5 5 [] none termState rfl).1,
   (step_terminal_absorbing 5 5 [] none termState rfl).2 _⟩

/-- C7: every reachable state that is not terminal has a body without
duplicate positions. -/
theorem reachable_alive_nodup (W H : Nat) (s : GameState)
    (h : Reachable W H s) (hg : s.game_over = false) : s.snake.Nodup :=
  (reachable_stateInv h).2.1 hg

/-- C7 witness: the duplicate-free body at the freshly reset 4 by 1
state. -/
theorem reachable_alive_nodup_witness : s40.snake.Nodup :=
  reachable_alive_nodup 4 1 s40 (Reachable.reset [] s40 (by decide)) rfl

/-- C8: in a non-terminal state with a nonempty body, a provided intent
that is the exact opposite of the current heading is rejected — the
direction after step is unchanged and the head moves one cell along the
old heading — while any other intent becomes the heading before the
move. -/
theorem step_reversal_rejection (W H : Nat) (rs : List (Nat × Nat))
    (c : Vec) (s : GameState) (hg : s.game_over = false)
    (hne : s.snake ≠ []) :
    (step W H rs (some c) s).direction =
      (if is_opposite c s.direction then s.direction else c) ∧
    (step W H rs (some c) s).snake.headI =
      s.snake.headI + (if is_opposite c s.direction then s.direction else c) := by
  have hd : effDir (some c) s =
      (if is_opposite c s.direction then s.direction else c) := rfl
  have hh : newHead (some c) s =
      s.snake.headI + (if is_opposite c s.direction then s.direction else c) := by
    rw [newHead, hd]
  cases hw : out_of_bounds W H (newHead (some c) s) with
  | true =>
    rw [step_eq_wall W H rs (some c) s hg hw]
    exact ⟨hd, hh⟩
  | false =>
    by_cases hm : newHead (some c) s ∈ s.snake
    · rw [step_eq_self W H rs (some c) s hg hw hm]
      exact ⟨hd, hh⟩
    · by_cases hf : newHead (some c) s = s.food
      · cases hr : random_free_cell W H rs (newHead (some c) s :: s.snake) with
        | ok f =>
          rw [step_eq_eat_ok W H rs (some c) s f hg hw hm hf hr]
          exact ⟨hd, hh⟩
        | error e =>
          rw [step_eq_eat_err W H rs (some c) s hg hw hm hf hr]
          exact ⟨hd, hh⟩
      · rw [step_eq_move W H rs (some c) s hg hw hm hf]
        obtain ⟨b, l, hbl⟩ : ∃ b l, s.snake = b :: l := by
          cases hsn : s.snake with
          | nil => exact absurd hsn hne
          | cons b l => exact ⟨b, l, rfl⟩
        refine ⟨hd, ?_⟩
        rw [← hh]
        simp [hbl]

/-- C8 witness: heading right with intent left at the 5 by 5 state —
the heading is unchanged and the head moves one cell right. -/
theorem step_reversal_rejection_witness :
    (step 5 5 [] (some DIR_LEFT) s42).direction =
      (if is_opposite DIR_LEFT s42.direction then s42.direction else DIR_LEFT) ∧
    (step 5 5 [] (some DIR_LEFT) s42).snake.headI =
      s42.snake.headI +
        (if is_opposite DIR_LEFT s42.direction then s42.direction else DIR_LEFT) :=
  step_reversal_rejection 5 5 [] DIR_LEFT s42 rfl (by decide)

/-- C9: after a reset the score starts at 0; every tick changes the
score by exactly the indicator of a food-eating move (so only eating
ticks change it, by exactly 1); along any run from the reset state the
score equals the number of food-eating ticks; and the score never
decreases as a run is extended. -/
theorem score_counts_eats (W H : Nat) (rs0 : List (Nat × Nat))
    (s0 : GameState) (h : reset_game W H rs0 = Except.ok s0) :
    s0.score = 0 ∧
    (∀ (rs : List (Nat × Nat)) (intent : Option Vec) (s : GameState),
      (step W H rs intent s).score =
        s.score + (if isEat W H intent s then 1 else 0)) ∧
    (∀ tr, (runSteps W H s0 tr).score = countEats W H s0 tr) ∧
    (∀ tr tr2,
      (runSteps W H s0 tr).score ≤ (runSteps W H s0 (tr ++ tr2)).score) := by
  obtain ⟨_, _, hs, _, _, _⟩ := reset_game_ok_elim h
  refine ⟨hs, fun rs intent s => step_score W H rs intent s, fun tr => ?_,
    fun tr tr2 => runSteps_score_mono W H s0 tr tr2⟩
  rw [runSteps_score, hs, Nat.zero_add]

/-- C9 witness: the score accounting at the 4 by 1 reset state and a
one-tick eating run. -/
theorem score_counts_eats_witness :
    s40.score = 0 ∧
    (step 4 1 [] none s40).score =
      s40.score + (if isEat 4 1 none s40 then 1 else 0) ∧
    (runSteps 4 1 s40 [([], none)]).score = countEats 4 1 s40 [([], none)] ∧
    (runSteps 4 1 s40 []).score ≤ (runSteps 4 1 s40 ([] ++ [([], none)])).score :=
  ⟨(score_counts_eats 4 1 [] s40 (by decide)).1,
   (score_counts_eats 4 1 [] s40 (by decide)).2.1 [] none s40,
   (score_counts_eats 4 1 [] s40 (by decide)).2.2.1 [([], none)],
   (score_counts_eats 4 1 [] s40 (by decide)).2.2.2 [] [([], none)]⟩

/-- C10: random_free_cell decides fullness by cardinality alone, never
by grid membership: for four distinct positions that all lie outside
the 2 by 2 grid it raises the no-free-cell error even though all four
grid cells are free. -/
theorem random_free_cell_cardinality_only :
    random_free_cell 2 2 [] offGrid4 = Except.error () ∧
    offGrid4.all (fun p => out_of_bounds 2 2 p) = true ∧
    offGrid4.dedup.length = 2 * 2 ∧
    (gridCells 2 2).all (fun c => decide (c ∉ offGrid4)) = true := by
  exact ⟨by decide, by decide, by decide, by decide⟩
